import Mathlib

/-!
# Verification of the crime-statistics batch pipeline

Shallow embedding of the repository's three batch scripts:

* `scripts/generate_demographics_and_sankey.py` — the proportional
  aggregation engine (Sankey generator).  Python dicts become
  insertion-ordered association lists, Python floats become exact
  rationals (`ℚ`), Python sets become `Finset String`.
* `scripts/prepare_state_month.py` — the format-normalizing converter.
  Its reachable behavior is its column-detection prologue:
  `detect_column` is called with `csv.DictReader.fieldnames`, a LIST,
  and indexes that list with a string, so it raises `TypeError`
  whenever a candidate column is present and returns `None` otherwise;
  `main` then `sys.exit(2)`s when no date column was detected.  The
  prologue is embedded as a total function on header lists
  (`mainPrologue`); of the row loop (dead code) only the module-level
  state tables — executed at import time — and the numeric coercion
  expression of lines 134–136 are embedded, as the claims need them.

Theorems at the end settle the specification claims about these
definitions.
-/

namespace CrimeFlow

/-! ## Distribution tables (static configuration of the Sankey script)

The three tables used by the Location → Weapon → Offense fan-out,
transcribed from `generate_demographics_and_sankey.py`. Python dicts
preserve insertion order, so each table is an association list in
source order. -/

/-- `LOCATION` table from the source: incident-location label → count. -/
def LOCATION : List (String × Nat) := [
  ("Residence/Home", 1920229), ("Highway/Road/Alley/Street/Sidewalk", 778700),
  ("Parking/Drop Lot/Garage", 208198), ("Other/Unknown", 104201),
  ("Hotel/Motel/Etc.", 58147), ("Bar/Nightclub", 51384),
  ("Convenience Store", 44552), ("Restaurant", 43244),
  ("Park/Playground", 42564), ("School-Elementary/Secondary", 39755),
  ("Service/Gas Station", 37900),
  ("Jail/Prison/Penitentiary/Corrections Facility", 37571),
  ("Drug Store/Doctor's Office/Hospital", 29118),
  ("Commercial/Office Building", 25180), ("Field/Woods", 18333),
  ("Grocery/Supermarket", 17968), ("Department/Discount Store", 16358),
  ("Specialty Store", 15675), ("Air/Bus/Train Terminal", 13889),
  ("Government/Public Building", 13150), ("Shelter-Mission/Homeless", 7752),
  ("School-College/University", 6634), ("Shopping Mall", 6059),
  ("School/College", 4838), ("Camp/Campground", 4726),
  ("Liquor Store", 4683), ("Church/Synagogue/Temple/Mosque", 4588),
  ("Construction Site", 4279), ("Tribal Lands", 3365),
  ("Lake/Waterway/Beach", 3364), ("Rental Storage Facility", 3348),
  ("Gambling Facility/Casino/Race Track", 2788), ("Community Center", 2691),
  ("Arena/Stadium/Fairgrounds/Coliseum", 2375), ("Industrial Site", 2164),
  ("Daycare Facility", 1918), ("Bank/Savings and Loan", 1843),
  ("Auto Dealership New/Used", 1705), ("Amusement Park", 1363),
  ("Abandoned/Condemned Structure", 1323),
  ("Dock/Wharf/Freight/Modal Terminal", 1155), ("Rest Area", 1115),
  ("Farm Facility", 747), ("ATM Separate from Bank", 274),
  ("Military Installation", 241), ("Cyberspace", 0), ("Not Specified", 0)]

/-- `WEAPON` table from the source: weapon label → count. -/
def WEAPON : List (String × Nat) := [
  ("Handgun", 727729), ("Personal Weapons", 704067),
  ("Knife/Cutting Instrument", 575271), ("Firearm", 452701),
  ("Other", 353407), ("Blunt Object", 346097),
  ("Motor Vehicle/Vessel", 188325), ("Asphyxiation", 106723),
  ("None", 91762), ("Unknown", 74937), ("Rifle", 62245),
  ("Other Firearm", 35673), ("Shotgun", 23723),
  ("Handgun (Automatic)", 20102), ("Firearm (Automatic)", 10960),
  ("Fire/Incendiary Device", 8483), ("Drugs/Narcotics/Sleeping Pills", 5927),
  ("Poison", 4036), ("Rifle (Automatic)", 3439), ("Explosives", 2198),
  ("Other Firearm (Automatic)", 827), ("Shotgun (Automatic)", 319)]

/-- `OFFENSE_LINK` table from the source: linked-offense label → count. -/
def OFFENSE_LINK : List (String × Nat) := [
  ("Destruction/Damage/Vandalism of Property", 217365),
  ("Weapon Law Violations", 178345), ("Simple Assault", 111621),
  ("Drug/Narcotic Violations", 49326), ("Kidnapping/Abduction", 47586),
  ("Burglary/Breaking & Entering", 39455), ("All Other Larceny", 28077),
  ("Intimidation", 22377), ("Drug Equipment Violations", 20798),
  ("Motor Vehicle Theft", 12542), ("Robbery", 11276),
  ("Murder and Nonnegligent Manslaughter", 9322),
  ("Stolen Property Offenses", 8164), ("Shoplifting", 8136),
  ("Theft From Motor Vehicle", 6488), ("Theft From Building", 6303),
  ("Criminal Sexual Contact", 4127), ("Arson", 3466),
  ("False Pretenses/Swindle/Confidence Game", 2472),
  ("Animal Cruelty", 2140), ("Impersonation", 1399),
  ("Theft of Motor Vehicle Parts or Accessories", 1084),
  ("Counterfeiting/Forgery", 1012), ("Rape", 860),
  ("Pocket-picking", 729), ("Purse-snatching", 661),
  ("Pornography/Obscene Material", 627), ("Identity Theft", 594),
  ("Credit Card/Automated Teller Machine Fraud", 570),
  ("Extortion/Blackmail", 436), ("Negligent Manslaughter", 415),
  ("Statutory Rape", 356), ("Human Trafficking, Commercial Sex Acts", 251),
  ("Sodomy", 203), ("Assisting or Promoting Prostitution", 196),
  ("Embezzlement", 174), ("Bribery", 167), ("Prostitution", 131),
  ("Human Trafficking, Involuntary Servitude", 106),
  ("Sexual Assault With An Object", 101), ("Wire Fraud", 64),
  ("Purchasing Prostitution", 58), ("Incest", 54),
  ("Hacking/Computer Invasion", 27),
  ("Theft From Coin-Operated Machine or Device", 19),
  ("Flight to Avoid Prosecution", 16),
  ("Operating/Promoting/Assisting Gambling", 14),
  ("Federal Liquor Offenses", 10), ("Welfare Fraud", 6),
  ("Betting/Wagering", 5), ("Gambling Equipment Violation", 4),
  ("Failure to Register as a Sex Offender", 2), ("Smuggling Aliens", 2),
  ("Illegal Entry into the United States", 1)]

/-! ## `normalize` -/

/-- Total count of a distribution table: `total = sum(d.values())`. -/
def tableTotal (d : List (String × Nat)) : Nat :=
  (d.map (fun kv => kv.2)).sum

/-- Embedding of `normalize(d)`: if the total is zero every label maps to
zero, otherwise each label maps to `count / total` in exact rationals. -/
def normalize (d : List (String × Nat)) : List (String × ℚ) :=
  if tableTotal d = 0 then d.map (fun kv => (kv.1, (0 : ℚ)))
  else d.map (fun kv => (kv.1, (kv.2 : ℚ) / (tableTotal d : ℚ)))

/-! ## The aggregation engine -/

/-- One row of `state_month.csv` as the Sankey script reads it
(`month`, `state_fips`, `state_abbr`, `state_name` kept as raw strings,
`offenses` parsed with `int(...)`). -/
structure SMRow where
  month : String
  fips : String
  abbr : String
  name : String
  offenses : Int
deriving DecidableEq, Repr

/-- Mutable state of the aggregation loop: `link_agg` (a `defaultdict`
from ordered label pairs to accumulated weight, insertion-ordered) and
`nodes_set` (a Python set of labels). -/
structure AggState where
  links : List ((String × String) × ℚ)
  nodes : Finset String

/-- `link_agg[key] += v` on the insertion-ordered association list:
update the existing entry in place, or append a fresh entry at the end
(the `defaultdict(float)` starts absent keys at `0`). -/
def addW : List ((String × String) × ℚ) → String × String → ℚ →
    List ((String × String) × ℚ)
  | [], k, v => [(k, v)]
  | (k', w) :: rest, k, v =>
    if k' = k then (k', w + v) :: rest else (k', w) :: addW rest k v

/-- Read accumulated weight of a key (`0` when absent, as in
`defaultdict(float)`). -/
def lookupW : List ((String × String) × ℚ) → String × String → ℚ
  | [], _ => 0
  | (k', w) :: rest, k => if k' = k then w else lookupW rest k

/-- Innermost loop body (`for off, po in off_p.items()`): compute
`cnt = weap_count * po`, skip when `cnt <= 0`, otherwise accumulate
`cnt` into edges `(loc, weap)` and `(weap, off)` and add all three
labels to the node set. -/
def innerStep (weapCount : ℚ) (loc weap : String) (st : AggState)
    (op : String × ℚ) : AggState :=
  let cnt := weapCount * op.2
  if cnt ≤ 0 then st
  else { links := addW (addW st.links (loc, weap) cnt) (weap, op.1) cnt,
         nodes := insert op.1 (insert weap (insert loc st.nodes)) }

/-- Middle loop body (`for weap, pw in weap_p.items()`): compute
`weap_count = loc_count * pw` and run the innermost loop. -/
def weapStep (locCount : ℚ) (loc : String) (offP : List (String × ℚ))
    (st : AggState) (wp : String × ℚ) : AggState :=
  offP.foldl (innerStep (locCount * wp.2) loc wp.1) st

/-- Outer loop body (`for loc, pl in loc_p.items()`): compute
`loc_count = O * pl` and run the middle loop. -/
def locStep (offCt : ℚ) (weapP offP : List (String × ℚ)) (st : AggState)
    (lp : String × ℚ) : AggState :=
  weapP.foldl (weapStep (offCt * lp.2) lp.1 offP) st

/-- Per-record body of the aggregation loop: `O = rec['offenses']`;
`if O <= 0: continue`; otherwise the triple fan-out loop. -/
def processRecord (locP weapP offP : List (String × ℚ)) (st : AggState)
    (r : SMRow) : AggState :=
  if r.offenses ≤ 0 then st
  else locP.foldl (locStep (r.offenses : ℚ) weapP offP) st

/-- Initial aggregation state: empty `link_agg`, empty `nodes_set`. -/
def initState : AggState := ⟨[], ∅⟩

/-- The whole aggregation loop over the input rows. -/
def runAgg (locP weapP offP : List (String × ℚ)) (rows : List SMRow) :
    AggState :=
  rows.foldl (processRecord locP weapP offP) initState

/-- `total_offenses = sum(r['offenses'] for r in rows)` — summed over
all rows, before any filtering. -/
def totalOffenses (rows : List SMRow) : Int :=
  (rows.map (fun r => r.offenses)).sum

/-- Python 3 `round` (banker's rounding, half to even) on an exact
rational, composed with `int(...)`: models `int(round(val))` at
serialization time. -/
def pyRound (q : ℚ) : ℤ :=
  if q - ⌊q⌋ < 1 / 2 then ⌊q⌋
  else if 1 / 2 < q - ⌊q⌋ then ⌊q⌋ + 1
  else if ⌊q⌋ % 2 = 0 then ⌊q⌋ else ⌊q⌋ + 1

/-- One emitted `links` entry of `sankey_us.json`. -/
structure SankeyLink where
  source : String
  target : String
  value : ℤ
deriving DecidableEq, Repr

/-- The emitted `sankey_us.json` object. -/
structure SankeyOut where
  nodes : List String
  links : List SankeyLink
  total_offenses : ℤ
deriving DecidableEq, Repr

/-- End-to-end flow-graph construction of `main()`: normalize the three
tables, fold the aggregation loop over the rows, then emit sorted
nodes, first-seen-order links with `int(round(val))`, and
`total_offenses`. -/
def flowGraph (locd weapd offd : List (String × Nat)) (rows : List SMRow) :
    SankeyOut :=
  let st := runAgg (normalize locd) (normalize weapd) (normalize offd) rows
  { nodes := st.nodes.sort (· ≤ ·),
    links := st.links.map (fun kv => ⟨kv.1.1, kv.1.2, pyRound kv.2⟩),
    total_offenses := totalOffenses rows }

/-- The script's actual invocation: the three fixed tables. -/
def usSankey (rows : List SMRow) : SankeyOut :=
  flowGraph LOCATION WEAPON OFFENSE_LINK rows

/-! ## Contribution functions

Closed forms for what one loop iteration adds to `link_agg` and
`nodes_set`; used to characterise the aggregation loop. -/

/-- Amount the innermost iteration (weapon count `wc`, labels `l`, `w`,
offense entry `op`) adds to edge key `k`: nothing when
`cnt = wc * po ≤ 0`, otherwise `cnt` once for each of the two hop keys
`(l, w)` and `(w, off)` that coincide with `k`. -/
def innerContrib (wc : ℚ) (l w : String) (op : String × ℚ)
    (k : String × String) : ℚ :=
  let cnt := wc * op.2
  if cnt ≤ 0 then 0
  else (if k = (l, w) then cnt else 0) + (if k = (w, op.1) then cnt else 0)

/-- Amount one record with positive offense count `O` adds to edge key
`k` over the whole three-level fan-out. -/
def fanoutContrib (locP weapP offP : List (String × ℚ)) (O : ℚ)
    (k : String × String) : ℚ :=
  (locP.map (fun lp =>
    (weapP.map (fun wp =>
      (offP.map (fun op =>
        innerContrib (O * lp.2 * wp.2) lp.1 wp.1 op k)).sum)).sum)).sum

/-- Amount one record adds to edge key `k`, including the
`offenses <= 0` skip. -/
def recContrib (locP weapP offP : List (String × ℚ)) (k : String × String)
    (r : SMRow) : ℚ :=
  if r.offenses ≤ 0 then 0
  else fanoutContrib locP weapP offP (r.offenses : ℚ) k

/-- Whether one record's fan-out puts label `n` into the node set: some
combination has positive flow and `n` is one of its three labels. -/
def recAddsNode (locP weapP offP : List (String × ℚ)) (n : String)
    (r : SMRow) : Prop :=
  ¬ r.offenses ≤ 0 ∧ ∃ lp ∈ locP, ∃ wp ∈ weapP, ∃ op ∈ offP,
    0 < (r.offenses : ℚ) * lp.2 * wp.2 * op.2 ∧
      (n = lp.1 ∨ n = wp.1 ∨ n = op.1)

/-- The keys (ordered label pairs) present in `link_agg`. -/
def linkKeys (ls : List ((String × String) × ℚ)) : List (String × String) :=
  ls.map Prod.fst

/-- Whether label `n` occurs as source or target of some accumulated
edge. -/
def linkHasLabel (ls : List ((String × String) × ℚ)) (n : String) : Prop :=
  ∃ kk ∈ linkKeys ls, n = kk.1 ∨ n = kk.2

end CrimeFlow

namespace Prepare

/-! ## The format-normalizing converter (`prepare_state_month.py`)

`main` (source lines 76–93) first runs seven
`detect_column(r.fieldnames, candidates)` calls and then the two
fatal-error checks.  `csv.DictReader.fieldnames` is a LIST of header
strings, and `detect_column` (lines 49–53) evaluates
`c in row and row[c] != ""`: list membership, then — on a hit — the
short-circuit `and` indexes the list with the string `c`, which raises
`TypeError` unconditionally.  So detection never returns a column
name: it raises whenever any candidate is a header name, and returns
`None` otherwise, in which case the `if not date_col` check
`sys.exit(2)`s.  This prologue is the converter's entire reachable
behavior; the row loop and output stage (lines 95–164) are dead code.
Of the dead code, only what the claims mention is embedded: the
module-level state tables (built at import time, hence reachable) and
the numeric coercion expression of lines 134–136. -/

/-- Parse outcome of one numeric CSV cell:
* `absent` — the cell is missing (`row.get` default) or the column was
  not detected;
* `empty` — the empty string (falsy, so `... or 0` turns it into `0`);
* `num n` — a numeric string, with `n = int(float(s))`;
* `bad` — a non-empty string `float` cannot parse (`ValueError`). -/
inductive NumCell where
  | absent
  | empty
  | num (n : Int)
  | bad
deriving DecidableEq, Repr

/-- The numeric coercion expression
`int(float(row.get(col, 0) or 0))` of source lines 134–136, for the
offenses / clearances / population fields: absent and empty cells are
coerced to `0`; an unparsable cell raises an uncaught `ValueError`,
embedded as `none`.  The row loop containing this expression is
unreachable (see `mainPrologue`), so this embeds the expression's
semantics, not any behavior a run of the program can exhibit. -/
def coerceNum : NumCell → Option Int
  | .absent => some 0
  | .empty => some 0
  | .num n => some n
  | .bad => none

/-- `STATE_MAP`: state name → (fips, abbreviation), in source order. -/
def STATE_MAP : List (String × Int × String) := [
  ("Alabama", 1, "AL"), ("Alaska", 2, "AK"), ("Arizona", 4, "AZ"),
  ("Arkansas", 5, "AR"), ("California", 6, "CA"), ("Colorado", 8, "CO"),
  ("Connecticut", 9, "CT"), ("Delaware", 10, "DE"),
  ("District of Columbia", 11, "DC"), ("Florida", 12, "FL"),
  ("Georgia", 13, "GA"), ("Hawaii", 15, "HI"), ("Idaho", 16, "ID"),
  ("Illinois", 17, "IL"), ("Indiana", 18, "IN"), ("Iowa", 19, "IA"),
  ("Kansas", 20, "KS"), ("Kentucky", 21, "KY"), ("Louisiana", 22, "LA"),
  ("Maine", 23, "ME"), ("Maryland", 24, "MD"), ("Massachusetts", 25, "MA"),
  ("Michigan", 26, "MI"), ("Minnesota", 27, "MN"), ("Mississippi", 28, "MS"),
  ("Missouri", 29, "MO"), ("Montana", 30, "MT"), ("Nebraska", 31, "NE"),
  ("Nevada", 32, "NV"), ("New Hampshire", 33, "NH"),
  ("New Jersey", 34, "NJ"), ("New Mexico", 35, "NM"),
  ("New York", 36, "NY"), ("North Carolina", 37, "NC"),
  ("North Dakota", 38, "ND"), ("Ohio", 39, "OH"), ("Oklahoma", 40, "OK"),
  ("Oregon", 41, "OR"), ("Pennsylvania", 42, "PA"),
  ("Rhode Island", 44, "RI"), ("South Carolina", 45, "SC"),
  ("South Dakota", 46, "SD"), ("Tennessee", 47, "TN"), ("Texas", 48, "TX"),
  ("Utah", 49, "UT"), ("Vermont", 50, "VT"), ("Virginia", 51, "VA"),
  ("Washington", 53, "WA"), ("West Virginia", 54, "WV"),
  ("Wisconsin", 55, "WI"), ("Wyoming", 56, "WY")]

/-- `ABBR_TO_FIPS = {v[1]: k for k, v in STATE_MAP.items()}` (source
line 45): despite its name and the `# abbrev -> fips` comment, the
comprehension maps each 2-letter abbreviation to the state NAME `k`,
not to the fips integer `v[0]`. -/
def ABBR_TO_FIPS : List (String × String) :=
  STATE_MAP.map (fun kv => (kv.2.2, kv.1))

/-- `NAME_TO_INFO = {k: (v[0], v[1]) for k, v in STATE_MAP.items()}`:
state name → (fips, abbreviation). -/
def NAME_TO_INFO : List (String × Int × String) :=
  STATE_MAP.map (fun kv => (kv.1, kv.2.1, kv.2.2))

/-- Candidate names for the date column (line 80). -/
def DATE_CANDIDATES : List String :=
  ["month", "date", "incident_date", "reported_date"]

/-- Candidate names for the fips column (line 81). -/
def FIPS_CANDIDATES : List String := ["state_fips", "fips"]

/-- Candidate names for the abbreviation column (line 82). -/
def ABBR_CANDIDATES : List String := ["state_abbr", "state", "abbr"]

/-- Candidate names for the state-name column (line 83). -/
def NAME_CANDIDATES : List String :=
  ["state_name", "state_name_full", "state_full", "state_name_raw"]

/-- Candidate names for the offense-count column (line 84). -/
def OFF_CANDIDATES : List String :=
  ["offenses", "offense_count", "count", "incidents", "n"]

/-- Candidate names for the clearance-count column (line 85). -/
def CLR_CANDIDATES : List String :=
  ["clearances", "clearance", "clearance_count", "clearances_count"]

/-- Candidate names for the population column (line 86). -/
def POP_CANDIDATES : List String := ["population", "pop", "state_population"]

/-- All candidate column names the seven detections recognize. -/
def ALL_CANDIDATES : List String :=
  DATE_CANDIDATES ++ FIPS_CANDIDATES ++ ABBR_CANDIDATES ++ NAME_CANDIDATES ++
    OFF_CANDIDATES ++ CLR_CANDIDATES ++ POP_CANDIDATES

/-- `detect_column(row, candidates)` (source lines 49-53) as `main`
calls it, with `row := r.fieldnames`, a LIST of header names: for each
candidate `c` in order, `c in row` is list membership; on a hit the
short-circuit `and` evaluates `row[c] != ""`, indexing the list with a
string — an uncaught `TypeError`, embedded as `none`.  When no
candidate is a header name the loop falls through and returns Python
`None`, embedded as `some none`.  The `return c` line is therefore
unreachable: `some (some c)` is never produced. -/
def detect_column : List String → List String → Option (Option String)
  | _, [] => some none
  | fieldnames, c :: rest =>
    if c ∈ fieldnames then none else detect_column fieldnames rest

/-- How a run of `main` ends, as far as line 95: an uncaught
`TypeError` out of `detect_column`, `sys.exit(2)` for a missing date
column (line 90) or missing state column (line 93), or falling through
to the row loop with the detected columns. -/
inductive Prologue where
  | typeError
  | exitNoDate
  | exitNoState
  | proceeds (dateCol : String)
      (fipsCol abbrCol nameCol offCol clrCol popCol : Option String)
deriving DecidableEq, Repr

/-- Lines 76-93 of `main`: the seven detections in source order (each
may raise), then `if not date_col: sys.exit(2)` and
`if not (fips_col or abbr_col or name_col): sys.exit(2)`.  A detected
column name would be truthy (candidates are non-empty strings), so the
truthiness tests are `isSome` tests here. -/
def mainPrologue (fieldnames : List String) : Prologue :=
  match detect_column fieldnames DATE_CANDIDATES with
  | none => .typeError
  | some dateCol =>
    match detect_column fieldnames FIPS_CANDIDATES with
    | none => .typeError
    | some fipsCol =>
      match detect_column fieldnames ABBR_CANDIDATES with
      | none => .typeError
      | some abbrCol =>
        match detect_column fieldnames NAME_CANDIDATES with
        | none => .typeError
        | some nameCol =>
          match detect_column fieldnames OFF_CANDIDATES with
          | none => .typeError
          | some offCol =>
            match detect_column fieldnames CLR_CANDIDATES with
            | none => .typeError
            | some clrCol =>
              match detect_column fieldnames POP_CANDIDATES with
              | none => .typeError
              | some popCol =>
                match dateCol with
                | none => .exitNoDate
                | some dc =>
                  if fipsCol.isSome || abbrCol.isSome || nameCol.isSome then
                    .proceeds dc fipsCol abbrCol nameCol offCol clrCol popCol
                  else .exitNoState

end Prepare

namespace CrimeFlow

/-! ## Facts about `normalize` -/

lemma sum_map_div_cast (l : List (String × Nat)) (T : ℚ) :
    ((l.map (fun kv => (kv.1, (kv.2 : ℚ) / T))).map (fun kv => kv.2)).sum
      = (l.map (fun kv => ((kv.2 : ℚ)))).sum / T := by
  induction l with
  | nil => simp
  | cons a t ih =>
    rw [List.map_cons, List.map_cons, List.sum_cons, ih, List.map_cons,
      List.sum_cons, add_div]

lemma total_cast (l : List (String × Nat)) :
    (l.map (fun kv => ((kv.2 : ℚ)))).sum = (tableTotal l : ℚ) := by
  unfold tableTotal
  induction l with
  | nil => simp
  | cons a t ih =>
    rw [List.map_cons, List.sum_cons, ih, List.map_cons, List.sum_cons]
    push_cast
    ring

/-- When the table total is positive, every count is at most the total. -/
lemma count_le_total (d : List (String × Nat)) (kv : String × Nat)
    (h : kv ∈ d) : kv.2 ≤ tableTotal d := by
  unfold tableTotal
  exact List.single_le_sum (fun x _ => Nat.zero_le x) _ (List.mem_map_of_mem _ h)

/-- C2: `normalize` keeps exactly the table's labels; with a positive
total every value is `count / total`, the values sum to `1` and lie in
`[0, 1]`; with a zero total every value is exactly `0`, and no error is
possible (`normalize` is a total function). -/
theorem normalize_distribution_spec (d : List (String × Nat)) :
    (normalize d).map Prod.fst = d.map Prod.fst ∧
    (0 < tableTotal d →
      ((normalize d).map (fun kv => kv.2)).sum = 1 ∧
      ∀ kv ∈ normalize d, 0 ≤ kv.2 ∧ kv.2 ≤ 1) ∧
    (tableTotal d = 0 → ∀ kv ∈ normalize d, kv.2 = 0) := by
  have hkeys : ∀ f : String × Nat → ℚ,
      ((d.map (fun kv => (kv.1, f kv))).map Prod.fst) = d.map Prod.fst := by
    intro f
    rw [List.map_map]
    rfl
  refine ⟨?_, ?_, ?_⟩
  · unfold normalize
    split
    · exact hkeys _
    · exact hkeys _
  · intro ht
    have h0 : tableTotal d ≠ 0 := Nat.pos_iff_ne_zero.mp ht
    have hq0 : (tableTotal d : ℚ) ≠ 0 := Nat.cast_ne_zero.mpr h0
    have hqpos : (0 : ℚ) < (tableTotal d : ℚ) := by
      exact_mod_cast ht
    constructor
    · rw [normalize, if_neg h0, sum_map_div_cast, total_cast]
      exact div_self hq0
    · intro kv hkv
      rw [normalize, if_neg h0] at hkv
      obtain ⟨p, hp, rfl⟩ := List.mem_map.mp hkv
      constructor
      · exact div_nonneg (by positivity) (le_of_lt hqpos)
      · rw [div_le_one hqpos]
        exact_mod_cast count_le_total d p hp
  · intro h0 kv hkv
    rw [normalize, if_pos h0] at hkv
    obtain ⟨p, hp, rfl⟩ := List.mem_map.mp hkv
    rfl

/-- Closed instance of `normalize_distribution_spec`: both implications
discharged at concrete tables. -/
theorem normalize_distribution_spec_witness :
    ((normalize [("A", 2), ("B", 2)]).map (fun kv => kv.2)).sum = 1 ∧
    ∀ kv ∈ normalize [("A", 0)], kv.2 = 0 :=
  ⟨((normalize_distribution_spec [("A", 2), ("B", 2)]).2.1 (by decide)).1,
   (normalize_distribution_spec [("A", 0)]).2.2 (by decide)⟩

/-! ## Generic facts about folding `AggState` transformers -/

lemma foldl_lookup {α : Type} (g : AggState → α → AggState) (c : α → ℚ)
    (k : String × String)
    (hg : ∀ st a, lookupW (g st a).links k = lookupW st.links k + c a)
    (xs : List α) :
    ∀ st : AggState,
      lookupW (xs.foldl g st).links k = lookupW st.links k + (xs.map c).sum := by
  induction xs with
  | nil => intro st; simp
  | cons a t ih =>
    intro st
    rw [List.foldl_cons, ih, hg, List.map_cons, List.sum_cons, add_assoc]

lemma foldl_nodes {α : Type} (g : AggState → α → AggState) (p : α → Prop)
    (n : String)
    (hg : ∀ st a, n ∈ (g st a).nodes ↔ n ∈ st.nodes ∨ p a)
    (xs : List α) :
    ∀ st : AggState,
      (n ∈ (xs.foldl g st).nodes ↔ n ∈ st.nodes ∨ ∃ a ∈ xs, p a) := by
  induction xs with
  | nil => intro st; simp
  | cons a t ih =>
    intro st
    rw [List.foldl_cons, ih, hg]
    constructor
    · rintro ((h | h) | ⟨b, hb, hp⟩)
      · exact Or.inl h
      · exact Or.inr ⟨a, List.mem_cons_self a t, h⟩
      · exact Or.inr ⟨b, List.mem_cons_of_mem a hb, hp⟩
    · rintro (h | ⟨b, hb, hp⟩)
      · exact Or.inl (Or.inl h)
      · rcases List.mem_cons.mp hb with rfl | hb
        · exact Or.inl (Or.inr hp)
        · exact Or.inr ⟨b, hb, hp⟩

lemma foldl_pres {α : Type} (g : AggState → α → AggState)
    (P : AggState → Prop) (hg : ∀ st a, P st → P (g st a)) (xs : List α) :
    ∀ st : AggState, P st → P (xs.foldl g st) := by
  induction xs with
  | nil => intro st h; exact h
  | cons a t ih =>
    intro st h
    exact ih _ (hg _ _ h)

lemma foldl_id_of_mem {α β : Type} (g : β → α → β) (xs : List α)
    (h : ∀ st a, a ∈ xs → g st a = st) : ∀ st : β, xs.foldl g st = st := by
  induction xs with
  | nil => intro st; rfl
  | cons a t ih =>
    intro st
    rw [List.foldl_cons, h st a (List.mem_cons_self a t)]
    exact ih (fun st' b hb => h st' b (List.mem_cons_of_mem a hb)) st

/-! ## `link_agg` lookup facts -/

lemma lookupW_addW (ls : List ((String × String) × ℚ))
    (k k' : String × String) (v : ℚ) :
    lookupW (addW ls k v) k' = lookupW ls k' + if k' = k then v else 0 := by
  induction ls with
  | nil =>
    by_cases h : k' = k
    · subst h
      simp [addW, lookupW]
    · have h' : ¬ k = k' := fun e => h e.symm
      simp [addW, lookupW, h, h']
  | cons hd tl ih =>
    obtain ⟨k'', w⟩ := hd
    by_cases h : k'' = k
    · subst h
      by_cases h2 : k' = k''
      · subst h2
        simp [addW, lookupW]
      · have h2' : ¬ k'' = k' := fun e => h2 e.symm
        simp [addW, lookupW, h2, h2']
    · by_cases h2 : k'' = k'
      · subst h2
        simp [addW, lookupW, h]
      · simp [addW, lookupW, h, h2, ih]

lemma mem_linkKeys_addW (ls : List ((String × String) × ℚ))
    (k k' : String × String) (v : ℚ) :
    k' ∈ linkKeys (addW ls k v) ↔ k' = k ∨ k' ∈ linkKeys ls := by
  induction ls with
  | nil => simp [addW, linkKeys]
  | cons hd tl ih =>
    obtain ⟨k'', w⟩ := hd
    by_cases h : k'' = k
    · subst h
      rw [addW, if_pos rfl]
      simp only [linkKeys, List.map_cons, List.mem_cons]
      tauto
    · rw [addW, if_neg h]
      simp only [linkKeys, List.map_cons, List.mem_cons] at ih ⊢
      rw [ih]
      tauto

lemma addW_pos (ls : List ((String × String) × ℚ)) (k : String × String)
    (v : ℚ) (hls : ∀ p ∈ ls, 0 < p.2) (hv : 0 < v) :
    ∀ p ∈ addW ls k v, 0 < p.2 := by
  induction ls with
  | nil =>
    intro p hp
    rw [addW] at hp
    rcases List.mem_singleton.mp hp with rfl
    exact hv
  | cons hd tl ih =>
    obtain ⟨k'', w⟩ := hd
    intro p hp
    by_cases h : k'' = k
    · subst h
      rw [addW, if_pos rfl] at hp
      rcases List.mem_cons.mp hp with rfl | hp'
      · have := hls (k'', w) (List.mem_cons_self _ _)
        exact add_pos this hv
      · exact hls p (List.mem_cons_of_mem _ hp')
    · rw [addW, if_neg h] at hp
      rcases List.mem_cons.mp hp with rfl | hp'
      · exact hls _ (List.mem_cons_self _ _)
      · exact ih (fun q hq => hls q (List.mem_cons_of_mem _ hq)) p hp'

lemma mem_linkKeys_iff_lookup_pos (ls : List ((String × String) × ℚ))
    (hpos : ∀ p ∈ ls, 0 < p.2) (k : String × String) :
    k ∈ linkKeys ls ↔ 0 < lookupW ls k := by
  induction ls with
  | nil => simp [linkKeys, lookupW]
  | cons hd tl ih =>
    obtain ⟨k', w⟩ := hd
    by_cases h : k' = k
    · subst h
      rw [lookupW, if_pos rfl]
      refine ⟨fun _ => hpos _ (List.mem_cons_self _ _), fun _ => ?_⟩
      simp [linkKeys]
    · rw [lookupW, if_neg h]
      simp only [linkKeys, List.map_cons, List.mem_cons]
      rw [← ih (fun q hq => hpos q (List.mem_cons_of_mem _ hq))]
      constructor
      · rintro (rfl | hk)
        · exact absurd rfl h
        · exact hk
      · exact Or.inr

/-! ## What each loop level adds to `link_agg` -/

lemma lookupW_innerStep (wc : ℚ) (l w : String) (st : AggState)
    (op : String × ℚ) (k : String × String) :
    lookupW (innerStep wc l w st op).links k
      = lookupW st.links k + innerContrib wc l w op k := by
  unfold innerStep innerContrib
  by_cases h : wc * op.2 ≤ 0
  · simp [h]
  · simp only [h, if_false]
    rw [lookupW_addW, lookupW_addW, add_assoc]

lemma lookupW_weapStep (lc : ℚ) (l : String) (offP : List (String × ℚ))
    (st : AggState) (wp : String × ℚ) (k : String × String) :
    lookupW (weapStep lc l offP st wp).links k
      = lookupW st.links k +
        (offP.map (fun op => innerContrib (lc * wp.2) l wp.1 op k)).sum := by
  unfold weapStep
  exact foldl_lookup _ _ k
    (fun st' op => lookupW_innerStep (lc * wp.2) l wp.1 st' op k) offP st

lemma lookupW_locStep (O : ℚ) (weapP offP : List (String × ℚ))
    (st : AggState) (lp : String × ℚ) (k : String × String) :
    lookupW (locStep O weapP offP st lp).links k
      = lookupW st.links k +
        (weapP.map (fun wp =>
          (offP.map (fun op =>
            innerContrib (O * lp.2 * wp.2) lp.1 wp.1 op k)).sum)).sum := by
  unfold locStep
  exact foldl_lookup _ _ k
    (fun st' wp => lookupW_weapStep (O * lp.2) lp.1 offP st' wp k) weapP st

lemma lookupW_processRecord (locP weapP offP : List (String × ℚ))
    (st : AggState) (r : SMRow) (k : String × String) :
    lookupW (processRecord locP weapP offP st r).links k
      = lookupW st.links k + recContrib locP weapP offP k r := by
  unfold processRecord recContrib
  by_cases h : r.offenses ≤ 0
  · simp [h]
  · rw [if_neg h, if_neg h]
    unfold fanoutContrib
    exact foldl_lookup _ _ k
      (fun st' lp => lookupW_locStep ((r.offenses : ℚ)) weapP offP st' lp k)
      locP st

lemma lookupW_runAgg (locP weapP offP : List (String × ℚ))
    (rows : List SMRow) (k : String × String) :
    lookupW (runAgg locP weapP offP rows).links k
      = (rows.map (recContrib locP weapP offP k)).sum := by
  unfold runAgg
  have h := foldl_lookup (processRecord locP weapP offP)
    (recContrib locP weapP offP k) k
    (fun st r => lookupW_processRecord locP weapP offP st r k) rows initState
  simpa [initState, lookupW] using h

/-! ## Which labels each loop level adds to the node set -/

lemma mem_innerStep (wc : ℚ) (l w : String) (st : AggState)
    (op : String × ℚ) (n : String) :
    n ∈ (innerStep wc l w st op).nodes ↔
      n ∈ st.nodes ∨ (0 < wc * op.2 ∧ (n = l ∨ n = w ∨ n = op.1)) := by
  unfold innerStep
  by_cases h : wc * op.2 ≤ 0
  · simp [h, not_lt.mpr h]
  · have h' : 0 < wc * op.2 := not_le.mp h
    simp only [h, if_false, Finset.mem_insert]
    constructor
    · rintro (rfl | rfl | rfl | hn)
      · exact Or.inr ⟨h', Or.inr (Or.inr rfl)⟩
      · exact Or.inr ⟨h', Or.inr (Or.inl rfl)⟩
      · exact Or.inr ⟨h', Or.inl rfl⟩
      · exact Or.inl hn
    · rintro (hn | ⟨_, rfl | rfl | rfl⟩)
      · exact Or.inr (Or.inr (Or.inr hn))
      · exact Or.inr (Or.inr (Or.inl rfl))
      · exact Or.inr (Or.inl rfl)
      · exact Or.inl rfl

lemma mem_weapStep (lc : ℚ) (l : String) (offP : List (String × ℚ))
    (st : AggState) (wp : String × ℚ) (n : String) :
    n ∈ (weapStep lc l offP st wp).nodes ↔
      n ∈ st.nodes ∨ ∃ op ∈ offP,
        0 < lc * wp.2 * op.2 ∧ (n = l ∨ n = wp.1 ∨ n = op.1) := by
  unfold weapStep
  exact foldl_nodes _
    (fun op => 0 < lc * wp.2 * op.2 ∧ (n = l ∨ n = wp.1 ∨ n = op.1)) n
    (fun st' op => mem_innerStep (lc * wp.2) l wp.1 st' op n) offP st

lemma mem_locStep (O : ℚ) (weapP offP : List (String × ℚ))
    (st : AggState) (lp : String × ℚ) (n : String) :
    n ∈ (locStep O weapP offP st lp).nodes ↔
      n ∈ st.nodes ∨ ∃ wp ∈ weapP, ∃ op ∈ offP,
        0 < O * lp.2 * wp.2 * op.2 ∧ (n = lp.1 ∨ n = wp.1 ∨ n = op.1) := by
  unfold locStep
  exact foldl_nodes _
    (fun wp => ∃ op ∈ offP,
      0 < O * lp.2 * wp.2 * op.2 ∧ (n = lp.1 ∨ n = wp.1 ∨ n = op.1)) n
    (fun st' wp => mem_weapStep (O * lp.2) lp.1 offP st' wp n) weapP st

lemma mem_processRecord (locP weapP offP : List (String × ℚ))
    (st : AggState) (r : SMRow) (n : String) :
    n ∈ (processRecord locP weapP offP st r).nodes ↔
      n ∈ st.nodes ∨ recAddsNode locP weapP offP n r := by
  unfold processRecord recAddsNode
  by_cases h : r.offenses ≤ 0
  · simp [h]
  · rw [if_neg h]
    rw [foldl_nodes _
      (fun lp => ∃ wp ∈ weapP, ∃ op ∈ offP,
        0 < (r.offenses : ℚ) * lp.2 * wp.2 * op.2 ∧
          (n = lp.1 ∨ n = wp.1 ∨ n = op.1)) n
      (fun st' lp => mem_locStep ((r.offenses : ℚ)) weapP offP st' lp n)
      locP st]
    constructor
    · rintro (hn | hex)
      · exact Or.inl hn
      · exact Or.inr ⟨h, hex⟩
    · rintro (hn | ⟨_, hex⟩)
      · exact Or.inl hn
      · exact Or.inr hex

lemma mem_runAgg (locP weapP offP : List (String × ℚ)) (rows : List SMRow)
    (n : String) :
    n ∈ (runAgg locP weapP offP rows).nodes ↔
      ∃ r ∈ rows, recAddsNode locP weapP offP n r := by
  unfold runAgg
  have h := foldl_nodes (processRecord locP weapP offP)
    (recAddsNode locP weapP offP n) n
    (fun st r => mem_processRecord locP weapP offP st r n) rows initState
  simpa [initState] using h

/-! ## All stored edge weights are positive -/

lemma linksPos_innerStep (wc : ℚ) (l w : String) (st : AggState)
    (op : String × ℚ) (h : ∀ p ∈ st.links, 0 < p.2) :
    ∀ p ∈ (innerStep wc l w st op).links, 0 < p.2 := by
  unfold innerStep
  by_cases hc : wc * op.2 ≤ 0
  · simpa [hc] using h
  · have hc' : 0 < wc * op.2 := not_le.mp hc
    simp only [hc, if_false]
    exact addW_pos _ _ _ (addW_pos _ _ _ h hc') hc'

lemma linksPos_runAgg (locP weapP offP : List (String × ℚ))
    (rows : List SMRow) :
    ∀ p ∈ (runAgg locP weapP offP rows).links, 0 < p.2 := by
  unfold runAgg
  refine foldl_pres _ (fun st => ∀ p ∈ st.links, 0 < p.2) ?_ rows initState ?_
  · intro st r hst
    unfold processRecord
    by_cases h : r.offenses ≤ 0
    · simpa [h] using hst
    · rw [if_neg h]
      refine foldl_pres _ (fun st' => ∀ p ∈ st'.links, 0 < p.2) ?_ locP st hst
      intro st1 lp h1
      unfold locStep
      refine foldl_pres _ (fun st' => ∀ p ∈ st'.links, 0 < p.2) ?_ weapP st1 h1
      intro st2 wp h2
      unfold weapStep
      refine foldl_pres _ (fun st' => ∀ p ∈ st'.links, 0 < p.2) ?_ offP st2 h2
      intro st3 op h3
      exact linksPos_innerStep _ _ _ _ _ h3
  · intro p hp
    simp [initState] at hp

/-! ## The node set carries exactly the link labels -/

lemma linkHasLabel_addW (ls : List ((String × String) × ℚ))
    (k : String × String) (v : ℚ) (n : String) :
    linkHasLabel (addW ls k v) n ↔
      (n = k.1 ∨ n = k.2) ∨ linkHasLabel ls n := by
  unfold linkHasLabel
  constructor
  · rintro ⟨kk, hkk, hn⟩
    rcases (mem_linkKeys_addW ls k kk v).mp hkk with rfl | h'
    · exact Or.inl hn
    · exact Or.inr ⟨kk, h', hn⟩
  · rintro (hn | ⟨kk, hkk, hn⟩)
    · exact ⟨k, (mem_linkKeys_addW ls k k v).mpr (Or.inl rfl), hn⟩
    · exact ⟨kk, (mem_linkKeys_addW ls k kk v).mpr (Or.inr hkk), hn⟩

lemma nodes_labels_innerStep (wc : ℚ) (l w : String) (st : AggState)
    (op : String × ℚ)
    (h : ∀ n, n ∈ st.nodes ↔ linkHasLabel st.links n) :
    ∀ n, n ∈ (innerStep wc l w st op).nodes ↔
      linkHasLabel (innerStep wc l w st op).links n := by
  intro n
  unfold innerStep
  by_cases hc : wc * op.2 ≤ 0
  · simpa [hc] using h n
  · simp only [hc, if_false, Finset.mem_insert]
    rw [linkHasLabel_addW, linkHasLabel_addW, h n]
    constructor
    · rintro (rfl | rfl | rfl | hn)
      · exact Or.inl (Or.inr rfl)
      · exact Or.inl (Or.inl rfl)
      · exact Or.inr (Or.inl (Or.inl rfl))
      · exact Or.inr (Or.inr hn)
    · rintro ((rfl | rfl) | (rfl | rfl) | hn)
      · exact Or.inr (Or.inl rfl)
      · exact Or.inl rfl
      · exact Or.inr (Or.inr (Or.inl rfl))
      · exact Or.inr (Or.inl rfl)
      · exact Or.inr (Or.inr (Or.inr hn))

lemma nodes_labels_runAgg (locP weapP offP : List (String × ℚ))
    (rows : List SMRow) :
    ∀ n, n ∈ (runAgg locP weapP offP rows).nodes ↔
      linkHasLabel (runAgg locP weapP offP rows).links n := by
  unfold runAgg
  refine foldl_pres _
    (fun st => ∀ n, n ∈ st.nodes ↔ linkHasLabel st.links n) ?_ rows
    initState ?_
  · intro st r hst
    unfold processRecord
    by_cases h : r.offenses ≤ 0
    · simpa [h] using hst
    · rw [if_neg h]
      refine foldl_pres _
        (fun s => ∀ n, n ∈ s.nodes ↔ linkHasLabel s.links n) ?_ locP st hst
      intro st1 lp h1
      unfold locStep
      refine foldl_pres _
        (fun s => ∀ n, n ∈ s.nodes ↔ linkHasLabel s.links n) ?_ weapP st1 h1
      intro st2 wp h2
      unfold weapStep
      refine foldl_pres _
        (fun s => ∀ n, n ∈ s.nodes ↔ linkHasLabel s.links n) ?_ offP st2 h2
      intro st3 op h3
      exact nodes_labels_innerStep _ _ _ _ _ h3
  · intro n
    simp [initState, linkHasLabel, linkKeys]

/-! ## Claim theorems for the aggregation engine -/

/-- C1: for a record with `offenses > 0`, the weight its processing
adds to any edge key is the sum, over all (location, weapon, offense)
combinations of the three distributions, of
`flow = offenses * P(location) * P(weapon) * P(offense)` counted once
for the hop `(location, weapon)` and once for the hop
`(weapon, offense)` when `flow > 0`, and not at all when `flow ≤ 0`. -/
theorem fanout_flow_both_hops (locP weapP offP : List (String × ℚ))
    (st : AggState) (r : SMRow) (h : 0 < r.offenses) (k : String × String) :
    lookupW (processRecord locP weapP offP st r).links k
      = lookupW st.links k +
        fanoutContrib locP weapP offP (r.offenses : ℚ) k := by
  rw [lookupW_processRecord]
  congr 1
  unfold recContrib
  rw [if_neg (not_le.mpr h)]

/-- Closed instance of `fanout_flow_both_hops` at a two-location,
one-weapon, one-offense configuration and a 100-offense record. -/
theorem fanout_flow_both_hops_witness :
    lookupW (processRecord [("A", (1 : ℚ)/2), ("B", (1 : ℚ)/2)]
        [("X", (1 : ℚ))] [("F", (1 : ℚ))] initState
        ⟨"2021-01", "1", "AL", "Alabama", 100⟩).links ("A", "X")
      = lookupW initState.links ("A", "X") +
        fanoutContrib [("A", (1 : ℚ)/2), ("B", (1 : ℚ)/2)]
          [("X", (1 : ℚ))] [("F", (1 : ℚ))] (((100 : Int) : ℚ)) ("A", "X") :=
  fanout_flow_both_hops _ _ _ _ _ (by decide) _

/-- C3: the emitted `total_offenses` is the exact sum of the `offenses`
field over all records (zero and negative ones included), while a
record with `offenses ≤ 0` leaves the aggregation state — hence every
edge and node — completely unchanged. -/
theorem total_offenses_all_records (locd weapd offd : List (String × Nat))
    (rows : List SMRow) :
    (flowGraph locd weapd offd rows).total_offenses
      = (rows.map (fun r => r.offenses)).sum ∧
    ∀ (locP weapP offP : List (String × ℚ)) (st : AggState) (r : SMRow),
      r.offenses ≤ 0 → processRecord locP weapP offP st r = st := by
  constructor
  · rfl
  · intro locP weapP offP st r h
    unfold processRecord
    rw [if_pos h]

/-- Closed instance of `total_offenses_all_records`: a zero-offense
record leaves the initial state untouched. -/
theorem total_offenses_all_records_witness :
    processRecord [("A", (1 : ℚ))] [("X", (1 : ℚ))] [("F", (1 : ℚ))]
        initState ⟨"2021-01", "1", "AL", "Alabama", 0⟩ = initState :=
  (total_offenses_all_records [] [] [] []).2 _ _ _ _ _ (by decide)

/-- C5: permuting the input records leaves `total_offenses`, the node
set, every accumulated edge weight, and the set of edge keys unchanged
(exact rational arithmetic). -/
theorem aggregation_order_independent (locP weapP offP : List (String × ℚ))
    (rows rows' : List SMRow) (h : rows.Perm rows') :
    totalOffenses rows = totalOffenses rows' ∧
    (runAgg locP weapP offP rows).nodes
      = (runAgg locP weapP offP rows').nodes ∧
    (∀ k, lookupW (runAgg locP weapP offP rows).links k
        = lookupW (runAgg locP weapP offP rows').links k) ∧
    (linkKeys (runAgg locP weapP offP rows).links).toFinset
      = (linkKeys (runAgg locP weapP offP rows').links).toFinset := by
  refine ⟨?_, ?_, ?_, ?_⟩
  · unfold totalOffenses
    exact (h.map _).sum_eq
  · ext n
    rw [mem_runAgg, mem_runAgg]
    constructor
    · rintro ⟨r, hr, hp⟩
      exact ⟨r, h.mem_iff.mp hr, hp⟩
    · rintro ⟨r, hr, hp⟩
      exact ⟨r, h.mem_iff.mpr hr, hp⟩
  · intro k
    rw [lookupW_runAgg, lookupW_runAgg]
    exact (h.map _).sum_eq
  · ext k
    simp only [List.mem_toFinset]
    rw [mem_linkKeys_iff_lookup_pos _ (linksPos_runAgg locP weapP offP rows),
      mem_linkKeys_iff_lookup_pos _ (linksPos_runAgg locP weapP offP rows'),
      lookupW_runAgg, lookupW_runAgg, (h.map _).sum_eq]

/-- Closed instance of `aggregation_order_independent` on a swapped
two-record list. -/
theorem aggregation_order_independent_witness :
    totalOffenses [(⟨"2021-01", "1", "AL", "Alabama", 2⟩ : SMRow),
        ⟨"2021-02", "2", "AK", "Alaska", 3⟩]
      = totalOffenses [(⟨"2021-02", "2", "AK", "Alaska", 3⟩ : SMRow),
        ⟨"2021-01", "1", "AL", "Alabama", 2⟩] :=
  (aggregation_order_independent [] [] []
    [⟨"2021-01", "1", "AL", "Alabama", 2⟩, ⟨"2021-02", "2", "AK", "Alaska", 3⟩]
    [⟨"2021-02", "2", "AK", "Alaska", 3⟩, ⟨"2021-01", "1", "AL", "Alabama", 2⟩]
    (by decide)).1

/-- C6: in the emitted flow graph, a label is a node exactly when it is
the source or target of some emitted link. -/
theorem nodes_equal_link_labels (locd weapd offd : List (String × Nat))
    (rows : List SMRow) (n : String) :
    n ∈ (flowGraph locd weapd offd rows).nodes ↔
      ∃ lnk ∈ (flowGraph locd weapd offd rows).links,
        n = lnk.source ∨ n = lnk.target := by
  unfold flowGraph
  rw [Finset.mem_sort, nodes_labels_runAgg]
  unfold linkHasLabel linkKeys
  constructor
  · rintro ⟨kk, hkk, hn⟩
    obtain ⟨kv, hkv, rfl⟩ := List.mem_map.mp hkk
    exact ⟨⟨kv.1.1, kv.1.2, pyRound kv.2⟩, List.mem_map_of_mem _ hkv, hn⟩
  · rintro ⟨lnk, hlnk, hn⟩
    obtain ⟨kv, hkv, rfl⟩ := List.mem_map.mp hlnk
    exact ⟨kv.1, List.mem_map_of_mem _ hkv, hn⟩

/-! ## A zero-total distribution wipes out every edge -/

lemma normalize_zero_values (d : List (String × Nat))
    (h : tableTotal d = 0) : ∀ p ∈ normalize d, p.2 = 0 := by
  intro p hp
  rw [normalize, if_pos h] at hp
  obtain ⟨q, hq, rfl⟩ := List.mem_map.mp hp
  rfl

lemma processRecord_zero_loc (locP weapP offP : List (String × ℚ))
    (st : AggState) (r : SMRow) (hz : ∀ p ∈ locP, p.2 = 0) :
    processRecord locP weapP offP st r = st := by
  unfold processRecord
  split
  · rfl
  · refine foldl_id_of_mem _ _ ?_ st
    intro st1 lp hlp
    unfold locStep
    refine foldl_id_of_mem _ _ ?_ st1
    intro st2 wp _
    unfold weapStep
    refine foldl_id_of_mem _ _ ?_ st2
    intro st3 op _
    rw [hz lp hlp]
    simp [innerStep]

lemma processRecord_zero_weap (locP weapP offP : List (String × ℚ))
    (st : AggState) (r : SMRow) (hz : ∀ p ∈ weapP, p.2 = 0) :
    processRecord locP weapP offP st r = st := by
  unfold processRecord
  split
  · rfl
  · refine foldl_id_of_mem _ _ ?_ st
    intro st1 lp _
    unfold locStep
    refine foldl_id_of_mem _ _ ?_ st1
    intro st2 wp hwp
    unfold weapStep
    refine foldl_id_of_mem _ _ ?_ st2
    intro st3 op _
    rw [hz wp hwp]
    simp [innerStep]

lemma processRecord_zero_off (locP weapP offP : List (String × ℚ))
    (st : AggState) (r : SMRow) (hz : ∀ p ∈ offP, p.2 = 0) :
    processRecord locP weapP offP st r = st := by
  unfold processRecord
  split
  · rfl
  · refine foldl_id_of_mem _ _ ?_ st
    intro st1 lp _
    unfold locStep
    refine foldl_id_of_mem _ _ ?_ st1
    intro st2 wp _
    unfold weapStep
    refine foldl_id_of_mem _ _ ?_ st2
    intro st3 op hop
    simp [innerStep, hz op hop]

lemma runAgg_zero_dist (locP weapP offP : List (String × ℚ))
    (rows : List SMRow)
    (h : (∀ p ∈ locP, p.2 = 0) ∨ (∀ p ∈ weapP, p.2 = 0) ∨
      (∀ p ∈ offP, p.2 = 0)) :
    runAgg locP weapP offP rows = initState := by
  unfold runAgg
  refine foldl_id_of_mem _ _ ?_ initState
  intro st r _
  rcases h with h | h | h
  · exact processRecord_zero_loc locP weapP offP st r h
  · exact processRecord_zero_weap locP weapP offP st r h
  · exact processRecord_zero_off locP weapP offP st r h

/-- C4 counterexample: with a zero-total location table, a nonzero
weapon table, a nonzero offense table and a single record of 100
offenses, the code emits NO links at all — in particular the
(weapon, offense) hop, which does not involve the degenerate location
dimension, receives no edge either. -/
theorem zero_total_dimension_counterexample :
    tableTotal [("L", 0)] = 0 ∧
    (0 : Int) < (⟨"2021-01", "1", "AL", "Alabama", 100⟩ : SMRow).offenses ∧
    (flowGraph [("L", 0)] [("W", 1)] [("F", 1)]
      [⟨"2021-01", "1", "AL", "Alabama", 100⟩]).links = [] := by
  refine ⟨by decide, by decide, ?_⟩
  unfold flowGraph
  rw [runAgg_zero_dist _ _ _ _
    (Or.inl (normalize_zero_values [("L", 0)] (by decide)))]
  rfl

/-- C4 as amended: a zero-total category table is not an error and is
handled as all-zero probabilities, but it silently suppresses the
ENTIRE flow graph — every combination's flow is zero, so neither hop
receives any edge and no label of any category appears as a node. -/
theorem zero_total_dimension_no_edges (locd weapd offd : List (String × Nat))
    (rows : List SMRow)
    (h : tableTotal locd = 0 ∨ tableTotal weapd = 0 ∨ tableTotal offd = 0) :
    (flowGraph locd weapd offd rows).links = [] ∧
    (flowGraph locd weapd offd rows).nodes = [] := by
  unfold flowGraph
  have hz : runAgg (normalize locd) (normalize weapd) (normalize offd) rows
      = initState := by
    refine runAgg_zero_dist _ _ _ _ ?_
    rcases h with h | h | h
    · exact Or.inl (normalize_zero_values locd h)
    · exact Or.inr (Or.inl (normalize_zero_values weapd h))
    · exact Or.inr (Or.inr (normalize_zero_values offd h))
  rw [hz]
  exact ⟨rfl, Finset.sort_empty _⟩

/-- Closed instance of `zero_total_dimension_no_edges`. -/
theorem zero_total_dimension_no_edges_witness :
    (flowGraph [("L", 0)] [("W", 3)] [("F", 4)]
      [⟨"2021-02", "2", "AK", "Alaska", 7⟩]).links = [] :=
  (zero_total_dimension_no_edges [("L", 0)] [("W", 3)] [("F", 4)]
    [⟨"2021-02", "2", "AK", "Alaska", 7⟩] (Or.inl (by decide))).1

end CrimeFlow

namespace Prepare

/-! ## The detection prologue is the converter's reachable behavior -/

lemma detect_column_not_found (fs cs : List String) (o : Option String)
    (h : detect_column fs cs = some o) : o = none := by
  induction cs with
  | nil =>
    simp only [detect_column, Option.some.injEq] at h
    exact h.symm
  | cons c rest ih =>
    rw [detect_column] at h
    by_cases hc : c ∈ fs
    · rw [if_pos hc] at h
      exact Option.noConfusion h
    · rw [if_neg hc] at h
      exact ih h

lemma detect_column_crash_iff (fs cs : List String) :
    detect_column fs cs = none ↔ ∃ c ∈ cs, c ∈ fs := by
  induction cs with
  | nil => simp [detect_column]
  | cons c rest ih =>
    by_cases hc : c ∈ fs
    · rw [detect_column, if_pos hc]
      simp only [List.mem_cons]
      exact ⟨fun _ => ⟨c, Or.inl rfl, hc⟩, fun _ => trivial⟩
    · rw [detect_column, if_neg hc, ih]
      simp only [List.mem_cons]
      constructor
      · rintro ⟨c', hc', hf⟩
        exact ⟨c', Or.inr hc', hf⟩
      · rintro ⟨c', rfl | hc', hf⟩
        · exact absurd hf hc
        · exact ⟨c', hc', hf⟩

lemma detect_some_no_hit (fs cs : List String) (o : Option String)
    (h : detect_column fs cs = some o) : ∀ c ∈ cs, c ∉ fs := by
  intro c hc hf
  have hn : detect_column fs cs = none :=
    (detect_column_crash_iff fs cs).mpr ⟨c, hc, hf⟩
  rw [h] at hn
  exact Option.noConfusion hn

/-- Every run of `main` ends in the prologue: an uncaught `TypeError`
from `detect_column`, or `sys.exit(2)` for a missing date column.  The
row loop, the output stage, and even the missing-state exit are
unreachable for every header. -/
lemma mainPrologue_cases (fs : List String) :
    mainPrologue fs = Prologue.typeError ∨
      mainPrologue fs = Prologue.exitNoDate := by
  unfold mainPrologue
  cases h1 : detect_column fs DATE_CANDIDATES with
  | none => exact Or.inl rfl
  | some dateCol =>
    have hd := detect_column_not_found fs DATE_CANDIDATES dateCol h1
    subst hd
    cases h2 : detect_column fs FIPS_CANDIDATES with
    | none => exact Or.inl rfl
    | some fipsCol =>
      cases h3 : detect_column fs ABBR_CANDIDATES with
      | none => exact Or.inl rfl
      | some abbrCol =>
        cases h4 : detect_column fs NAME_CANDIDATES with
        | none => exact Or.inl rfl
        | some nameCol =>
          cases h5 : detect_column fs OFF_CANDIDATES with
          | none => exact Or.inl rfl
          | some offCol =>
            cases h6 : detect_column fs CLR_CANDIDATES with
            | none => exact Or.inl rfl
            | some clrCol =>
              cases h7 : detect_column fs POP_CANDIDATES with
              | none => exact Or.inl rfl
              | some popCol => exact Or.inr rfl

/-- The prologue raises `TypeError` exactly when some recognized
candidate column name occurs in the header. -/
lemma mainPrologue_typeError_iff (fs : List String) :
    mainPrologue fs = Prologue.typeError ↔
      ∃ c ∈ ALL_CANDIDATES, c ∈ fs := by
  have hmem : ∀ c : String, c ∈ ALL_CANDIDATES ↔
      c ∈ DATE_CANDIDATES ∨ c ∈ FIPS_CANDIDATES ∨ c ∈ ABBR_CANDIDATES ∨
      c ∈ NAME_CANDIDATES ∨ c ∈ OFF_CANDIDATES ∨ c ∈ CLR_CANDIDATES ∨
      c ∈ POP_CANDIDATES := by
    intro c
    unfold ALL_CANDIDATES
    simp [List.mem_append]
  unfold mainPrologue
  cases h1 : detect_column fs DATE_CANDIDATES with
  | none =>
    obtain ⟨c, hc, hf⟩ := (detect_column_crash_iff fs _).mp h1
    exact ⟨fun _ => ⟨c, (hmem c).mpr (Or.inl hc), hf⟩, fun _ => rfl⟩
  | some dateCol =>
    have hd := detect_column_not_found fs DATE_CANDIDATES dateCol h1
    subst hd
    have hno1 := detect_some_no_hit fs DATE_CANDIDATES _ h1
    cases h2 : detect_column fs FIPS_CANDIDATES with
    | none =>
      obtain ⟨c, hc, hf⟩ := (detect_column_crash_iff fs _).mp h2
      exact ⟨fun _ => ⟨c, (hmem c).mpr (Or.inr (Or.inl hc)), hf⟩, fun _ => rfl⟩
    | some fipsCol =>
      have hno2 := detect_some_no_hit fs FIPS_CANDIDATES _ h2
      cases h3 : detect_column fs ABBR_CANDIDATES with
      | none =>
        obtain ⟨c, hc, hf⟩ := (detect_column_crash_iff fs _).mp h3
        exact ⟨fun _ => ⟨c, (hmem c).mpr (Or.inr (Or.inr (Or.inl hc))), hf⟩,
          fun _ => rfl⟩
      | some abbrCol =>
        have hno3 := detect_some_no_hit fs ABBR_CANDIDATES _ h3
        cases h4 : detect_column fs NAME_CANDIDATES with
        | none =>
          obtain ⟨c, hc, hf⟩ := (detect_column_crash_iff fs _).mp h4
          exact ⟨fun _ =>
            ⟨c, (hmem c).mpr (Or.inr (Or.inr (Or.inr (Or.inl hc)))), hf⟩,
            fun _ => rfl⟩
        | some nameCol =>
          have hno4 := detect_some_no_hit fs NAME_CANDIDATES _ h4
          cases h5 : detect_column fs OFF_CANDIDATES with
          | none =>
            obtain ⟨c, hc, hf⟩ := (detect_column_crash_iff fs _).mp h5
            exact ⟨fun _ =>
              ⟨c, (hmem c).mpr
                (Or.inr (Or.inr (Or.inr (Or.inr (Or.inl hc))))), hf⟩,
              fun _ => rfl⟩
          | some offCol =>
            have hno5 := detect_some_no_hit fs OFF_CANDIDATES _ h5
            cases h6 : detect_column fs CLR_CANDIDATES with
            | none =>
              obtain ⟨c, hc, hf⟩ := (detect_column_crash_iff fs _).mp h6
              exact ⟨fun _ =>
                ⟨c, (hmem c).mpr
                  (Or.inr (Or.inr (Or.inr (Or.inr (Or.inr (Or.inl hc)))))),
                  hf⟩,
                fun _ => rfl⟩
            | some clrCol =>
              have hno6 := detect_some_no_hit fs CLR_CANDIDATES _ h6
              cases h7 : detect_column fs POP_CANDIDATES with
              | none =>
                obtain ⟨c, hc, hf⟩ := (detect_column_crash_iff fs _).mp h7
                exact ⟨fun _ =>
                  ⟨c, (hmem c).mpr
                    (Or.inr (Or.inr (Or.inr (Or.inr (Or.inr
                      (Or.inr hc)))))), hf⟩,
                  fun _ => rfl⟩
              | some popCol =>
                have hno7 := detect_some_no_hit fs POP_CANDIDATES _ h7
                constructor
                · intro h
                  have h' : Prologue.exitNoDate = Prologue.typeError := h
                  exact Prologue.noConfusion h'
                · rintro ⟨c, hc, hf⟩
                  rcases (hmem c).mp hc with
                    hc | hc | hc | hc | hc | hc | hc
                  · exact absurd hf (hno1 c hc)
                  · exact absurd hf (hno2 c hc)
                  · exact absurd hf (hno3 c hc)
                  · exact absurd hf (hno4 c hc)
                  · exact absurd hf (hno5 c hc)
                  · exact absurd hf (hno6 c hc)
                  · exact absurd hf (hno7 c hc)

/-! ## Claim theorems for the converter -/

/-- C7 counterexample: on a header that carries a month column, a
state column and all three numeric columns — so every row has
offenses, clearances and population fields — the converter raises
`TypeError` inside `detect_column` before reading a single row.
Coercion never happens, processing does not continue, and no row
contributes to aggregation, refuting the claim that such values
"are coerced to zero rather than causing a failure". -/
theorem unreachable_coercion_counterexample :
    mainPrologue ["month", "state_abbr", "offenses", "clearances",
      "population"] = Prologue.typeError := by
  decide

/-- C7 as amended: the coercion expression of lines 134–136 maps an
absent or empty offenses / clearances / population cell to zero and
raises an uncaught `ValueError` exactly on a non-empty unparsable
cell; but that expression sits in dead code — on every input the
converter aborts during column detection, with a `TypeError` exactly
when some recognized column name is present in the header and with
`sys.exit(2)` (missing date column) otherwise, so processing never
continues and no row ever contributes to aggregation. -/
theorem numeric_coercion_policy :
    (∀ c : NumCell,
      c = NumCell.absent ∨ c = NumCell.empty → coerceNum c = some 0) ∧
    (∀ c : NumCell, coerceNum c = none ↔ c = NumCell.bad) ∧
    (∀ fieldnames : List String,
      (mainPrologue fieldnames = Prologue.typeError ↔
        ∃ c ∈ ALL_CANDIDATES, c ∈ fieldnames) ∧
      (mainPrologue fieldnames = Prologue.typeError ∨
        mainPrologue fieldnames = Prologue.exitNoDate)) := by
  refine ⟨?_, ?_, ?_⟩
  · rintro c (rfl | rfl) <;> rfl
  · intro c
    cases c <;> simp [coerceNum]
  · intro fieldnames
    exact ⟨mainPrologue_typeError_iff fieldnames, mainPrologue_cases fieldnames⟩

/-- Closed instance of `numeric_coercion_policy`: both coercion cases
discharged at concrete cells. -/
theorem numeric_coercion_policy_witness :
    coerceNum NumCell.absent = some 0 ∧ coerceNum NumCell.empty = some 0 :=
  ⟨numeric_coercion_policy.1 NumCell.absent (Or.inl rfl),
   numeric_coercion_policy.1 NumCell.empty (Or.inr rfl)⟩

/-- C8: evaluating the code at the failing input.  The module-level
`ABBR_TO_FIPS` (line 45, built at import time) maps the abbreviation
"AL" to the state NAME string "Alabama", not to the fips
integer 1, despite its name and the `# abbrev -> fips` comment; and on
the failing header `month,state_abbr,offenses` the converter raises
`TypeError` during column detection before reading any row, so it
emits no output row at all — in particular no row whose `state_fips`
is a small positive integer. -/
theorem abbr_fips_miswired_eval :
    List.lookup "AL" ABBR_TO_FIPS = some "Alabama" ∧
    mainPrologue ["month", "state_abbr", "offenses"]
      = Prologue.typeError := by
  exact ⟨by decide, by decide⟩

/-- C9: evaluating the code at the failing input.  For every header
the converter aborts in the detection prologue (`TypeError` or
`sys.exit(2)`) — so it never reaches the merge loop or the output
stage and never produces the claimed single merged row; on the header
`month,state_fips,offenses,clearances`, under which duplicate
`(month, state)` rows would arrive, it raises `TypeError`. -/
theorem duplicate_merge_unreachable :
    (∀ fieldnames : List String,
      mainPrologue fieldnames = Prologue.typeError ∨
        mainPrologue fieldnames = Prologue.exitNoDate) ∧
    mainPrologue ["month", "state_fips", "offenses", "clearances"]
      = Prologue.typeError := by
  exact ⟨mainPrologue_cases, by decide⟩

/-- C10: evaluating the code at the failing input.  On the header
`date,state,count,population` — all four are recognized candidate
names — the converter raises `TypeError` in `detect_column`, and a
header with no recognized candidates at all makes it `sys.exit(2)`
for the missing date column; either way the population-merge code and
the output stage are never reached. -/
theorem population_merge_unreachable :
    mainPrologue ["date", "state", "count", "population"]
      = Prologue.typeError ∧
    mainPrologue ["foo", "bar"] = Prologue.exitNoDate := by
  exact ⟨by decide, by decide⟩

end Prepare
